import Mathlib

/-!
Shallow embedding of the SMS forwarder's AT-command engine
(`src/sms_device_at.py`) and its Gammu-based device wrapper
(`src/sms_device.py`).

Python strings are modelled as Lean `String` (in this toolchain a wrapper
around `List Char`, which keeps every definition executable).  Serial
traffic is modelled by oracles: each issued AT command is mapped to the
bytes the device has made available by the time the code drains the
buffer.  `re` patterns are translated into character-level matchers; for
every pattern appearing in the source the greedy classes (`\d+`, `[^"]+`,
`\s*`, `[,\s]+`) are each followed by a character outside the class, so
maximal-munch matching coincides with the backtracking semantics of `re`.
-/

namespace SMSF

/-- Characters of the regex class `\s`, also the ASCII subset stripped by
Python `str.strip()` (AT responses are ASCII). -/
def isSpaceB (c : Char) : Bool :=
  c == ' ' || c == '\t' || c == '\n' || c == '\r' || c == '\x0b' || c == '\x0c'

/-- Remove leading and trailing characters satisfying `p`, as Python
`str.strip(chars)` does. -/
def stripWhile (p : Char → Bool) (s : List Char) : List Char :=
  ((s.dropWhile p).reverse.dropWhile p).reverse

/-- Python `str.strip()` with no argument: trim whitespace on both ends. -/
def strip (s : List Char) : List Char := stripWhile isSpaceB s

/-- Test whether the pattern (first argument) is a prefix of the text. -/
def startsWithL : List Char → List Char → Bool
  | [], _ => true
  | _ :: _, [] => false
  | p :: ps, c :: s => c == p && startsWithL ps s

/-- Occurrence of `pat` as a contiguous run in `hay`: Python `pat in hay`. -/
def containsL : List Char → List Char → Bool
  | [], pat => pat.isEmpty
  | c :: t, pat => startsWithL pat (c :: t) || containsL t pat

/-- Python substring test `pat in hay` on `String`. -/
def strContains (hay pat : String) : Bool := containsL hay.data pat.data

/-- Numeric value of a run of decimal digits, as `int()` applied to a
regex capture of `\d+`. -/
def digitsToNat (ds : List Char) : Nat :=
  ds.foldl (fun n c => n * 10 + (c.toNat - 48)) 0

/-- Greedy `(\d+)` at the current position: the maximal run of digits,
failing when it is empty. -/
def digits1 (s : List Char) : Option (Nat × List Char) :=
  let ds := s.takeWhile Char.isDigit
  if ds.isEmpty then none else some (digitsToNat ds, s.dropWhile Char.isDigit)

/-- Consume an exact literal at the current position. -/
def dropLit : List Char → List Char → Option (List Char)
  | [], s => some s
  | _ :: _, [] => none
  | p :: ps, c :: s => if c == p then dropLit ps s else none

/-- Leftmost-occurrence search: `re.search` semantics for an anchored
matcher `m`, trying every start position from the left. -/
def searchAux {α : Type} (m : List Char → Option α) : List Char → Option α
  | [] => m []
  | c :: s =>
    match m (c :: s) with
    | some r => some r
    | none => searchAux m s

/-- Greedy `"([^"]+)"` at the current position: a nonempty quoted capture. -/
def quoted1 (s : List Char) : Option (List Char × List Char) :=
  match dropLit ['"'] s with
  | none => none
  | some s1 =>
    let cs := s1.takeWhile (fun c => c != '"')
    match dropLit ['"'] (s1.dropWhile (fun c => c != '"')) with
    | none => none
    | some s2 => if cs.isEmpty then none else some (cs, s2)

/-- Anchored matcher for `\+CSQ:\s*(\d+),(\d+)` from
`SMSDeviceAT.get_signal_strength`. -/
def matchCSQ (s : List Char) : Option (Nat × Nat) := do
  let s ← dropLit "+CSQ:".data s
  let (rssi, s) ← digits1 (s.dropWhile isSpaceB)
  let s ← dropLit [','] s
  let (ber, _) ← digits1 s
  pure (rssi, ber)

/-- Linear rescaling `int((rssi / 31.0) * 100)` from
`SMSDeviceAT.get_signal_strength`; for a natural `rssi` the float
expression computes the floor of `rssi * 100 / 31` (the quotient is at
distance at least `1/31` from the next integer whenever it is not exact,
far beyond double rounding error). -/
def scaleRssi (rssi : Nat) : Nat := rssi * 100 / 31

/-- Model of `SMSDeviceAT.get_signal_strength` applied to the text drained
after `AT+CSQ`: parse `+CSQ: <rssi>,<ber>`, map the sentinel 99 to
"unknown", otherwise rescale 0–31 to 0–100. -/
def get_signal_strength (response : String) : Option Nat :=
  match searchAux matchCSQ response.data with
  | some (rssi, _) => if rssi = 99 then none else some (scaleRssi rssi)
  | none => none

/-- Anchored matcher for
`\+CREG:\s*(\d+),(\d+),"([^"]+)","([^"]+)",(\d+)` from
`SMSDeviceAT.get_network_registration`. -/
def matchCREGfull (s : List Char) : Option (Nat × Nat × String × String × Nat) := do
  let s ← dropLit "+CREG:".data s
  let (n, s) ← digits1 (s.dropWhile isSpaceB)
  let s ← dropLit [','] s
  let (stat, s) ← digits1 s
  let s ← dropLit [','] s
  let (lac, s) ← quoted1 s
  let s ← dropLit [','] s
  let (ci, s) ← quoted1 s
  let s ← dropLit [','] s
  let (act, _) ← digits1 s
  pure (n, stat, String.mk lac, String.mk ci, act)

/-- Anchored matcher for `\+CREG:\s*(\d+),(\d+)`. -/
def matchCREGsimple (s : List Char) : Option (Nat × Nat) := do
  let s ← dropLit "+CREG:".data s
  let (n, s) ← digits1 (s.dropWhile isSpaceB)
  let s ← dropLit [','] s
  let (stat, _) ← digits1 s
  pure (n, stat)

/-- Fixed `stat_map` lookup table of `get_network_registration`. -/
def stat_map (stat : Nat) : Option String :=
  match stat with
  | 0 => some "Not registered"
  | 1 => some "Registered (home)"
  | 2 => some "Searching"
  | 3 => some "Registration denied"
  | 4 => some "Unknown"
  | 5 => some "Registered (roaming)"
  | 6 => some "Registered (home, SMS only)"
  | 7 => some "Registered (roaming, SMS only)"
  | 8 => some "Emergency only"
  | 9 => some "Registered (home, CSFB not preferred)"
  | 10 => some "Registered (roaming, CSFB not preferred)"
  | 11 => some "Emergency only"
  | _ => none

/-- Fixed `act_map` lookup table of `get_network_registration`. -/
def act_map (act : Nat) : Option String :=
  match act with
  | 0 => some "GSM"
  | 1 => some "GSM Compact"
  | 2 => some "UTRAN"
  | 3 => some "GSM w/EGPRS"
  | 4 => some "UTRAN w/HSDPA"
  | 5 => some "UTRAN w/HSUPA"
  | 6 => some "UTRAN w/HSDPA and HSUPA"
  | 7 => some "E-UTRAN (LTE)"
  | 8 => some "UTRAN HSPA+/EC-GSM-IoT"
  | _ => none

/-- Record returned by `SMSDeviceAT.get_network_registration`. -/
structure RegInfo where
  stat : Nat
  stat_str : String
  lac : Option String
  ci : Option String
  act : Option Nat
  act_str : Option String
deriving Repr, DecidableEq

/-- Model of `SMSDeviceAT.get_network_registration` applied to the text
drained after `AT+CREG?`: try the full five-field shape, then the short
two-field shape, else no result; unknown codes render as
`Unknown (<code>)`. -/
def get_network_registration (response : String) : Option RegInfo :=
  match searchAux matchCREGfull response.data with
  | some (_, stat, lac, ci, act) =>
    some ⟨stat, (stat_map stat).getD ("Unknown (" ++ toString stat ++ ")"),
      some lac, some ci, some act,
      some ((act_map act).getD ("Unknown (" ++ toString act ++ ")"))⟩
  | none =>
    match searchAux matchCREGsimple response.data with
    | some (_, stat) =>
      some ⟨stat, (stat_map stat).getD ("Unknown (" ++ toString stat ++ ")"),
        none, none, none, none⟩
    | none => none

/-- C8: Registration parsing duality — `+CREG: 1,5` parses to a record
with `stat = 5` and `lac = ci = act = none`; the long form
`+CREG: 2,1,"1A2B","3C4D",7` parses to `stat = 1`, `lac = "1A2B"`,
`ci = "3C4D"`, `act = 7`; a response matching neither shape yields
`none`. -/
theorem creg_parsing_duality :
    get_network_registration "+CREG: 1,5" =
      some ⟨5, "Registered (roaming)", none, none, none, none⟩ ∧
    get_network_registration "+CREG: 2,1,\"1A2B\",\"3C4D\",7" =
      some ⟨1, "Registered (home)", some "1A2B", some "3C4D", some 7,
        some "E-UTRAN (LTE)"⟩ ∧
    (∀ r : String, searchAux matchCREGfull r.data = none →
      searchAux matchCREGsimple r.data = none →
      get_network_registration r = none) := by
  refine ⟨by decide, by decide, ?_⟩
  intro r h1 h2
  simp [get_network_registration, h1, h2]

/-- Witness for C8: a concrete response matching neither CREG shape parses
to `none`. -/
theorem creg_parsing_duality_witness :
    searchAux matchCREGfull "ERROR".data = none ∧
    searchAux matchCREGsimple "ERROR".data = none ∧
    get_network_registration "ERROR" = none := by
  exact ⟨by decide, by decide,
    creg_parsing_duality.2.2 "ERROR" (by decide) (by decide)⟩

/-- C9: Signal scaling — the `+CSQ` parser returns `none` when the raw
indicator is the sentinel 99, otherwise `int((rssi/31)*100)`; raw 31 gives
100, raw 0 gives 0, and every raw value in 0..31 scales into 0..100. -/
theorem signal_scaling :
    (∀ (response : String) (rssi ber : Nat),
      searchAux matchCSQ response.data = some (rssi, ber) →
      get_signal_strength response =
        if rssi = 99 then none else some (scaleRssi rssi)) ∧
    get_signal_strength "+CSQ: 31,0" = some 100 ∧
    get_signal_strength "+CSQ: 0,5" = some 0 ∧
    get_signal_strength "+CSQ: 99,7" = none ∧
    (∀ rssi, rssi ≤ 31 → scaleRssi rssi ≤ 100) := by
  refine ⟨?_, by decide, by decide, by decide, ?_⟩
  · intro response rssi ber h
    simp [get_signal_strength, h]
  · intro rssi h
    calc rssi * 100 / 31 ≤ 31 * 100 / 31 :=
          Nat.div_le_div_right (Nat.mul_le_mul_right 100 h)
      _ = 100 := by norm_num

/-- Witness for C9: the general clauses applied at raw indicator 20. -/
theorem signal_scaling_witness :
    get_signal_strength "+CSQ: 20,0" = some 64 ∧ scaleRssi 20 ≤ 100 := by
  have h1 := signal_scaling.1 "+CSQ: 20,0" 20 0 (by decide)
  have h2 := signal_scaling.2.2.2.2 20 (by decide)
  have h3 : scaleRssi 20 = 64 := by decide
  refine ⟨?_, h2⟩
  rw [h1, h3]
  decide

/-- Serial port state: the bytes currently buffered on the host side,
i.e. what `self.ser.in_waiting` would report available. -/
structure Serial where
  buffer : String
deriving Repr, DecidableEq

/-- Drain `self.ser.read(self.ser.in_waiting)`: return everything buffered
and leave the buffer empty. -/
def serRead (ser : Serial) : String × Serial := (ser.buffer, ⟨""⟩)

/-- Host-to-device write `self.ser.write(...)`: the host buffer is
untouched; the device's answer is modelled separately by the response
oracle. -/
def serWrite (ser : Serial) (_bytes : String) : Serial := ser

/-- Bytes the device makes available while the host sleeps. -/
def serArrive (ser : Serial) (bytes : String) : Serial := ⟨ser.buffer ++ bytes⟩

/-- Model of `SMSDeviceAT.connect` after a successful serial open: sleep
0.5 s, then drain the buffer once, leaving it empty. -/
def connectAT (ser : Serial) : Serial := (serRead ser).2

/-- Model of `SMSDeviceAT.send_command` on an open port. `env cmd` is the
text the device has made available by the end of the `time.sleep`
settle. Returns the drained response, the new port state, and the list of
writes performed, each paired with the settle duration slept,
measured in tenths of a second (so `time.sleep(0.5)` is recorded as 5). The code
does not clear the buffer before writing: bytes pending from before the
write are returned as part of the response. -/
def send_command (ser : Serial) (env : String → String) (command : String)
    (wait_time : Nat) : String × Serial × List (String × Nat) :=
  let ser1 := serWrite ser (command ++ "\r\n")
  let ser2 := serArrive ser1 (env command)
  let (resp, ser3) := serRead ser2
  (resp, ser3, [(command ++ "\r\n", wait_time)])

/-- Counterexample to C7 as stated: with stale bytes buffered, the
response returned by `send_command` is not just the freshly arrived
device output — the stale bytes are not cleared before the write, they
are prepended to what the command produced. -/
theorem command_framing_counterexample :
    (send_command ⟨"STALE"⟩ (fun _ => "\r\nOK\r\n") "AT" 1).1 ≠ "\r\nOK\r\n" := by
  decide

/-- C7 amended: the buffer is cleared once at `connect`; each
`send_command` writes the command plus CR LF, sleeps the command-specific
settle duration, then drains and returns whatever bytes are available —
including any stale bytes buffered before the write. -/
theorem command_framing_amended :
    (∀ ser : Serial, connectAT ser = ⟨""⟩) ∧
    (∀ (ser : Serial) (env : String → String) (cmd : String) (w : Nat),
      send_command ser env cmd w =
        (ser.buffer ++ env cmd, ⟨""⟩, [(cmd ++ "\r\n", w)])) :=
  ⟨fun _ => rfl, fun _ _ _ _ => rfl⟩

/-- Model of `SMSDeviceAT.delete_sms_at`: locations outside 0..1000 are
rejected before any transport activity; otherwise the storage bank is
selected with `AT+CPMS` and, if that acknowledges `OK`, the message is
deleted with `AT+CMGD=<location>,0`; a successful delete retires the
dedup key `<memory>_<location>` from `processed_sms_ids`. -/
def delete_sms_at (ser : Serial) (env : String → String)
    (processed : Finset String) (location : Int) (memory : String) :
    Bool × Serial × Finset String × List (String × Nat) :=
  if location < 0 ∨ location > 1000 then (false, ser, processed, [])
  else
    let (resp1, ser1, t1) :=
      send_command ser env ("AT+CPMS=\"" ++ memory ++ "\"") 5
    if strContains resp1 "OK" then
      let (resp2, ser2, t2) :=
        send_command ser1 env ("AT+CMGD=" ++ toString location ++ ",0") 10
      if strContains resp2 "OK" then
        (true, ser2, processed.erase (memory ++ "_" ++ toString location), t1 ++ t2)
      else (false, ser2, processed, t1 ++ t2)
    else (false, ser1, processed, t1)

/-- C10: a delete request with location below 0 or above 1000 returns
`False` with nothing written to the transport; inside the inclusive bound
0..1000 the storage-select command is written first and the delete
command, when written at all, comes second. -/
theorem delete_bound_at_interface :
    (∀ (ser : Serial) (env : String → String) (processed : Finset String)
      (location : Int) (memory : String),
      location < 0 ∨ location > 1000 →
      delete_sms_at ser env processed location memory = (false, ser, processed, [])) ∧
    (∀ (ser : Serial) (env : String → String) (processed : Finset String)
      (location : Int) (memory : String),
      0 ≤ location → location ≤ 1000 →
      ∃ rest, (delete_sms_at ser env processed location memory).2.2.2 =
          ("AT+CPMS=\"" ++ memory ++ "\"" ++ "\r\n", 5) :: rest ∧
        (rest = [] ∨
          rest = [("AT+CMGD=" ++ toString location ++ ",0" ++ "\r\n", 10)])) := by
  constructor
  · intro ser env processed location memory h
    rw [delete_sms_at, if_pos h]
  · intro ser env processed location memory h0 h1
    have hb : ¬(location < 0 ∨ location > 1000) := by omega
    rw [delete_sms_at, if_neg hb]
    simp only [send_command, serWrite, serArrive, serRead]
    split
    · split
      · exact ⟨_, rfl, Or.inr rfl⟩
      · exact ⟨_, rfl, Or.inr rfl⟩
    · exact ⟨_, rfl, Or.inl rfl⟩

/-- Witness for C10: location 1001 is rejected with an empty trace, and
location 1000 issues the storage select then the delete. -/
theorem delete_bound_at_interface_witness :
    delete_sms_at ⟨""⟩ (fun _ => "\r\nOK\r\n") ∅ 1001 "ME" = (false, ⟨""⟩, ∅, []) ∧
    (delete_sms_at ⟨""⟩ (fun _ => "\r\nOK\r\n") ∅ 1000 "ME").2.2.2 =
      [("AT+CPMS=\"ME\"\r\n", 5), ("AT+CMGD=1000,0\r\n", 10)] := by
  constructor
  · exact delete_bound_at_interface.1 ⟨""⟩ (fun _ => "\r\nOK\r\n") ∅ 1001 "ME"
      (by norm_num)
  · have h := delete_bound_at_interface.2 ⟨""⟩ (fun _ => "\r\nOK\r\n") ∅ 1000 "ME"
      (by norm_num) (by norm_num)
    decide

/-- Value of one hexadecimal digit. -/
def hexVal (c : Char) : Option Nat :=
  if '0' ≤ c ∧ c ≤ '9' then some (c.toNat - 48)
  else if 'A' ≤ c ∧ c ≤ 'F' then some (c.toNat - 55)
  else if 'a' ≤ c ∧ c ≤ 'f' then some (c.toNat - 87)
  else none

/-- Bytes from pairs of hex digits, as `bytearray.fromhex` on space-free
input: fails on a non-hex character or an odd digit count. -/
def hexBytes : List Char → Option (List Nat)
  | [] => some []
  | [_] => none
  | c1 :: c2 :: rest => do
    let h1 ← hexVal c1
    let h2 ← hexVal c2
    let bs ← hexBytes rest
    pure ((h1 * 16 + h2) :: bs)

/-- Big-endian 16-bit code units from a byte list; an odd byte count is an
error, as in `bytes.decode(given encoding utf-16-be)`. -/
def be16Units : List Nat → Option (List Nat)
  | [] => some []
  | [_] => none
  | b1 :: b2 :: rest => (be16Units rest).map (fun us => (b1 * 256 + b2) :: us)

/-- Strict UTF-16 decoding of code units: BMP units become characters,
high/low surrogate pairs combine, anything unpaired is an error. -/
def utf16Chars : List Nat → Option (List Char)
  | [] => some []
  | [u] => if u < 0xD800 ∨ 0xE000 ≤ u then some [Char.ofNat u] else none
  | u :: v :: rest =>
    if u < 0xD800 ∨ 0xE000 ≤ u then
      (utf16Chars (v :: rest)).map (fun cs => Char.ofNat u :: cs)
    else if u < 0xDC00 ∧ 0xDC00 ≤ v ∧ v < 0xE000 then
      (utf16Chars rest).map
        (fun cs => Char.ofNat (0x10000 + (u - 0xD800) * 1024 + (v - 0xDC00)) :: cs)
    else none

/-- Model of the external `smspdudecoder` codec `UCS2.decode` used by
`read_single_sms`: interpret the text as hex-encoded UTF-16 big-endian
data; any failure raises in the source, which the caller's `except` turns
into a failed read (`none` here). -/
def UCS2decode (s : String) : Option String := do
  let bs ← hexBytes s.data
  let us ← be16Units bs
  let cs ← utf16Chars us
  pure (String.mk cs)

/-- Python `str.split(sep)` for a one-character separator. -/
def splitOnChar (sep : Char) : List Char → List (List Char)
  | [] => [[]]
  | c :: rest =>
    if c == sep then [] :: splitOnChar sep rest
    else
      match splitOnChar sep rest with
      | [] => [[c]]
      | g :: gs => (c :: g) :: gs

/-- Anchored matcher for the `+CMGR` header pattern
`\+CMGR:\s*"([^"]+)","([^"]+)"[,\s]+"?([^"]*)"?` of
`SMSDeviceAT.read_single_sms`; captures status, sender and timestamp. -/
def matchCMGR (s : List Char) : Option (String × String × String) := do
  let s ← dropLit "+CMGR:".data s
  let (status, s) ← quoted1 (s.dropWhile isSpaceB)
  let s ← dropLit [','] s
  let (sender, s) ← quoted1 s
  let sep := s.takeWhile (fun c => c == ',' || isSpaceB c)
  if sep.isEmpty then none
  else
    let s := s.dropWhile (fun c => c == ',' || isSpaceB c)
    let s := match dropLit ['"'] s with
      | some s1 => s1
      | none => s
    let ts := s.takeWhile (fun c => c != '"')
    pure (String.mk status, String.mk sender, String.mk ts)

/-- Fields of the dictionary returned by `SMSDeviceAT.read_single_sms`.
The source's `date` field holds a parsed `datetime` with a wall-clock
fallback; the model keeps the raw captured timestamp text instead, which
no claim inspects. -/
structure SingleSms where
  index : Nat
  number : String
  text : String
  status : String
  dateRaw : String
deriving Repr, DecidableEq

/-- Text-line gathering loop of `read_single_sms`: stripped lines up to
the next `+CMGR:` header or a terminal `OK`, blanks skipped, joined with
the empty separator. -/
def collectText : List (List Char) → List Char
  | [] => []
  | l :: rest =>
    let lc := strip l
    if startsWithL "+CMGR:".data lc || lc == "OK".data then []
    else if lc.isEmpty then collectText rest
    else lc ++ collectText rest

/-- Line scan of `read_single_sms`: at the first line starting with
`+CMGR:`, parse the header (a mismatch is final), gather the following
text lines, trim wrapping quotes, and UCS2-decode sender and text. -/
def parseCMGRresponse (index : Nat) : List (List Char) → Option SingleSms
  | [] => none
  | l :: rest =>
    let lc := strip l
    if startsWithL "+CMGR:".data lc then
      match matchCMGR lc with
      | none => none
      | some (status, sender, ts) =>
        let text := stripWhile (fun c => c == '\'')
          (stripWhile (fun c => c == '"') (strip (collectText rest)))
        match UCS2decode sender, UCS2decode (String.mk text) with
        | some sender2, some text2 => some ⟨index, sender2, text2, status, ts⟩
        | _, _ => none
    else parseCMGRresponse index rest

/-- Model of `SMSDeviceAT.read_single_sms` applied to the text drained
after `AT+CMGR=<index>`: the response must contain both `OK` and
`+CMGR:`; any parse or decode failure yields `none`. -/
def read_single_sms (index : Nat) (response : String) : Option SingleSms :=
  if strContains response "OK" && strContains response "+CMGR:" then
    parseCMGRresponse index (splitOnChar '\n' response.data)
  else none

/-- Anchored matcher for `\+CMGL:\s*(\d+),` of `read_all_sms`. -/
def matchCMGL (s : List Char) : Option Nat := do
  let s ← dropLit "+CMGL:".data s
  let (idx, s) ← digits1 (s.dropWhile isSpaceB)
  let _ ← dropLit [','] s
  pure idx

/-- Listing scan of `read_all_sms`: indices extracted from the lines
beginning with `+CMGL:`. -/
def parseCMGLIndices (response : String) : List Nat :=
  (splitOnChar '\n' response.data).filterMap (fun l =>
    let lc := strip l
    if startsWithL "+CMGL:".data lc then matchCMGL lc else none)

/-- Message dictionary appended by `SMSDeviceAT.read_all_sms`: the single
read's fields plus `memory` and `sms_id`. -/
structure SmsRec where
  index : Nat
  number : String
  text : String
  status : String
  dateRaw : String
  memory : String
  sms_id : String
deriving Repr, DecidableEq

/-- Dedup key `f"{memory}_{index}"`. -/
def mkSmsId (memory : String) (index : Nat) : String :=
  memory ++ "_" ++ toString index

/-- Per-poll responses: the text drained after each command that
`read_all_sms` issues (`AT+CMGF=1`, `AT+CPMS="<memory>"`,
`AT+CMGL="ALL"`, and `AT+CMGR=<index>` per index). -/
structure PollEnv where
  cmgfResp : String
  cpmsResp : String
  cmglResp : String
  cmgrResp : Nat → String

/-- Per-index loop of `read_all_sms`. An index whose dedup key is already
in `processed` is skipped; a failed or empty single read leaves the key
out so the index is retried next poll; a successful non-empty read adds
the key and appends the message — after which the log f-string
`sms['from']` raises `KeyError` (the dictionary key is `'number'`), so
the surrounding `except` handler returns the messages accumulated so far
and the loop never reaches the remaining indices. -/
def readLoop (memory : String) (cmgr : Nat → String) (processed : Finset String) :
    List Nat → List SmsRec × Finset String
  | [] => ([], processed)
  | index :: rest =>
    let sms_id := mkSmsId memory index
    if sms_id ∈ processed then readLoop memory cmgr processed rest
    else
      match read_single_sms index (cmgr index) with
      | some s =>
        if s.text = "" then readLoop memory cmgr processed rest
        else ([⟨index, s.number, s.text, s.status, s.dateRaw, memory, sms_id⟩],
          insert sms_id processed)
      | none => readLoop memory cmgr processed rest

/-- Model of `SMSDeviceAT.read_all_sms`: set text mode, select the bank
(each must acknowledge `OK`), list indices, then read each listed index
individually, skipping already processed dedup keys. -/
def read_all_sms (memory : String) (env : PollEnv) (processed : Finset String) :
    List SmsRec × Finset String :=
  if strContains env.cmgfResp "OK" then
    if strContains env.cpmsResp "OK" then
      readLoop memory env.cmgrResp processed (parseCMGLIndices env.cmglResp)
    else ([], processed)
  else ([], processed)

/-- One SMS poll: the target bank and that poll's drained responses. -/
structure Poll where
  memory : String
  env : PollEnv

/-- Sequence of `read_all_sms` polls on one device with no delete between
them: all emitted messages in order, with the final dedup state. -/
def runPolls : List Poll → Finset String → List SmsRec × Finset String
  | [], processed => ([], processed)
  | p :: ps, processed =>
    let r1 := read_all_sms p.memory p.env processed
    let r2 := runPolls ps r1.2
    (r1.1 ++ r2.1, r2.2)

lemma readLoop_subset (memory : String) (cmgr : Nat → String)
    (processed : Finset String) (is : List Nat) :
    processed ⊆ (readLoop memory cmgr processed is).2 := by
  induction is generalizing processed with
  | nil => exact fun a ha => ha
  | cons i rest ih =>
    rw [readLoop]
    by_cases h1 : mkSmsId memory i ∈ processed
    · rw [if_pos h1]
      exact ih processed
    · rw [if_neg h1]
      cases hr : read_single_sms i (cmgr i) with
      | none => exact ih processed
      | some s =>
        dsimp only
        by_cases h2 : s.text = ""
        · rw [if_pos h2]
          exact ih processed
        · rw [if_neg h2]
          exact Finset.subset_insert _ _

lemma readLoop_mem (memory : String) (cmgr : Nat → String)
    (processed : Finset String) (is : List Nat) (m : SmsRec)
    (hm : m ∈ (readLoop memory cmgr processed is).1) :
    m.memory = memory ∧ m.sms_id = mkSmsId memory m.index ∧
    m.sms_id ∉ processed ∧ m.sms_id ∈ (readLoop memory cmgr processed is).2 := by
  induction is generalizing processed with
  | nil => simp [readLoop] at hm
  | cons i rest ih =>
    rw [readLoop] at hm ⊢
    by_cases h1 : mkSmsId memory i ∈ processed
    · rw [if_pos h1] at hm ⊢
      exact ih processed hm
    · rw [if_neg h1] at hm ⊢
      cases hr : read_single_sms i (cmgr i) with
      | none =>
        rw [hr] at hm
        dsimp only at hm ⊢
        exact ih processed hm
      | some s =>
        rw [hr] at hm
        dsimp only at hm ⊢
        by_cases h2 : s.text = ""
        · rw [if_pos h2] at hm ⊢
          exact ih processed hm
        · rw [if_neg h2] at hm ⊢
          simp only [List.mem_singleton] at hm
          subst hm
          exact ⟨rfl, rfl, h1, Finset.mem_insert_self _ _⟩

lemma readLoop_pairwise (memory : String) (cmgr : Nat → String)
    (processed : Finset String) (is : List Nat) :
    ((readLoop memory cmgr processed is).1).Pairwise
      (fun a b => a.sms_id ≠ b.sms_id) := by
  induction is generalizing processed with
  | nil => simp [readLoop]
  | cons i rest ih =>
    rw [readLoop]
    by_cases h1 : mkSmsId memory i ∈ processed
    · rw [if_pos h1]
      exact ih processed
    · rw [if_neg h1]
      cases hr : read_single_sms i (cmgr i) with
      | none => exact ih processed
      | some s =>
        dsimp only
        by_cases h2 : s.text = ""
        · rw [if_pos h2]
          exact ih processed
        · rw [if_neg h2]
          exact List.pairwise_singleton _ _

lemma read_all_sms_subset (memory : String) (env : PollEnv)
    (processed : Finset String) :
    processed ⊆ (read_all_sms memory env processed).2 := by
  rw [read_all_sms]
  split
  · split
    · exact readLoop_subset _ _ _ _
    · exact fun a ha => ha
  · exact fun a ha => ha

lemma read_all_sms_mem (memory : String) (env : PollEnv)
    (processed : Finset String) (m : SmsRec)
    (hm : m ∈ (read_all_sms memory env processed).1) :
    m.memory = memory ∧ m.sms_id = mkSmsId memory m.index ∧
    m.sms_id ∉ processed ∧ m.sms_id ∈ (read_all_sms memory env processed).2 := by
  rw [read_all_sms] at hm ⊢
  split at hm
  · split at hm
    · rw [if_pos (by assumption), if_pos (by assumption)]
      exact readLoop_mem _ _ _ _ _ hm
    · simp at hm
  · simp at hm

lemma read_all_sms_pairwise (memory : String) (env : PollEnv)
    (processed : Finset String) :
    ((read_all_sms memory env processed).1).Pairwise
      (fun a b => a.sms_id ≠ b.sms_id) := by
  rw [read_all_sms]
  split
  · split
    · exact readLoop_pairwise _ _ _ _
    · simp
  · simp

lemma runPolls_subset (ps : List Poll) (st : Finset String) :
    st ⊆ (runPolls ps st).2 := by
  induction ps generalizing st with
  | nil => exact fun a ha => ha
  | cons p ps ih =>
    rw [runPolls]
    exact Finset.Subset.trans (read_all_sms_subset _ _ _) (ih _)

lemma runPolls_mem (ps : List Poll) (st : Finset String) (m : SmsRec)
    (hm : m ∈ (runPolls ps st).1) :
    m.sms_id = mkSmsId m.memory m.index ∧ m.sms_id ∉ st ∧
    m.sms_id ∈ (runPolls ps st).2 := by
  induction ps generalizing st with
  | nil => simp [runPolls] at hm
  | cons p ps ih =>
    rw [runPolls] at hm ⊢
    dsimp only at hm ⊢
    rcases List.mem_append.mp hm with h | h
    · obtain ⟨hmem, hid, hnot, hin⟩ := read_all_sms_mem _ _ _ _ h
      exact ⟨by rw [hid, hmem], hnot, runPolls_subset ps _ hin⟩
    · obtain ⟨hid, hnot, hin⟩ := ih _ h
      exact ⟨hid, fun hst => hnot (read_all_sms_subset _ _ _ hst), hin⟩

lemma runPolls_pairwise (ps : List Poll) (st : Finset String) :
    ((runPolls ps st).1).Pairwise (fun a b => a.sms_id ≠ b.sms_id) := by
  induction ps generalizing st with
  | nil => simp [runPolls]
  | cons p ps ih =>
    rw [runPolls]
    dsimp only
    rw [List.pairwise_append]
    refine ⟨read_all_sms_pairwise _ _ _, ih _, ?_⟩
    intro a ha b hb
    obtain ⟨_, _, _, hain⟩ := read_all_sms_mem _ _ _ _ ha
    obtain ⟨_, hbnot, _⟩ := runPolls_mem ps _ b hb
    intro hEq
    exact hbnot (hEq ▸ hain)

/-- C1: Dedup idempotence — across any sequence of `read_all_sms` polls
with no delete between them, from any starting dedup state, each distinct
`(memory, index)` pair appears in the union of the returned message lists
at most once: once its key enters `processed_sms_ids` after a successful
non-empty read, every later poll skips that index. -/
theorem dedup_idempotence (ps : List Poll) (st : Finset String) :
    ((runPolls ps st).1).Pairwise
      (fun a b => a.memory ≠ b.memory ∨ a.index ≠ b.index) := by
  have hp := runPolls_pairwise ps st
  refine hp.imp_of_mem ?_
  intro a b ha hb hne
  by_contra hcon
  push_neg at hcon
  obtain ⟨hmem, hidx⟩ := hcon
  obtain ⟨hida, _, _⟩ := runPolls_mem ps st a ha
  obtain ⟨hidb, _, _⟩ := runPolls_mem ps st b hb
  exact hne (by rw [hida, hidb, hmem, hidx])

/-- Plain `OK` acknowledgement as drained from the port. -/
def respOK : String := "\r\nOK\r\n"

/-- Listing response whose header lines carry indices 0 and 2. -/
def cmglZeroTwo : String :=
  "AT+CMGL=\"ALL\"\r\n+CMGL: 0,\"REC UNREAD\",\"\",,\r\n+CMGL: 2,\"REC UNREAD\",\"\",,\r\n\r\nOK\r\n"

/-- Listing response whose header lines carry indices 0 and 1. -/
def cmglZeroOne : String :=
  "AT+CMGL=\"ALL\"\r\n+CMGL: 0,\"REC UNREAD\",\"\",,\r\n+CMGL: 1,\"REC UNREAD\",\"\",,\r\n\r\nOK\r\n"

/-- Successful `AT+CMGR` response: sender `+61412345678` and text `Hello`
in UCS2 hex, with the Air 780EP timestamp format. -/
def cmgrHello : String :=
  "AT+CMGR=0\r\n+CMGR: \"REC UNREAD\",\"002B00360031003400310032003300340035003600370038\",,\"25/10/25,19:33:13+44\"\r\n00480065006C006C006F\r\n\r\nOK\r\n"

/-- Garbled single-read capture that fails to parse. -/
def cmgrGarbled : String := "\r\nERROR\r\n"

/-- Poll environment of the C5 scenario: listing yields `[0, 2]`, index 0
reads back cleanly, index 2 is garbled. -/
def envC5 : PollEnv :=
  ⟨respOK, respOK, cmglZeroTwo, fun i => if i = 0 then cmgrHello else cmgrGarbled⟩

/-- Poll environment whose single reads always succeed. -/
def envAllGood (listing : String) : PollEnv :=
  ⟨respOK, respOK, listing, fun _ => cmgrHello⟩

/-- C5: End-to-end poll scenario — the listing yields indices `[0, 2]`,
the single read of index 0 succeeds with sender `+61412345678` and text
`Hello`, the single read of index 2 fails to parse; the poll returns
exactly the index-0 message, adds key `ME_0`, leaves `ME_2` absent, and a
later poll in which index 2 reads back cleanly emits index 2. -/
theorem end_to_end_poll_scenario :
    parseCMGLIndices cmglZeroTwo = [0, 2] ∧
    read_single_sms 0 cmgrHello =
      some ⟨0, "+61412345678", "Hello", "REC UNREAD", "25/10/25,19:33:13+44"⟩ ∧
    read_single_sms 2 cmgrGarbled = none ∧
    (read_all_sms "ME" envC5 ∅).1 =
      [⟨0, "+61412345678", "Hello", "REC UNREAD", "25/10/25,19:33:13+44",
        "ME", "ME_0"⟩] ∧
    "ME_0" ∈ (read_all_sms "ME" envC5 ∅).2 ∧
    "ME_2" ∉ (read_all_sms "ME" envC5 ∅).2 ∧
    ((read_all_sms "ME" (envAllGood cmglZeroTwo)
        (read_all_sms "ME" envC5 ∅).2).1.map SmsRec.index) = [2] := by
  refine ⟨by decide, by decide, by decide, by decide, by decide, by decide, by decide⟩

/-- C2 at the failing input: a successful `delete_sms_at` of `(ME, 1)`
retires key `ME_1` and a failed delete leaves the set unchanged — but the
next poll, whose listing holds the fresh messages 0 and 1, emits only
index 0: after appending a message the log f-string `sms['from']` raises
`KeyError` (the key is `'number'`), aborting the loop before index 1 is
read, contrary to the claim that the message at the deleted slot is
emitted again by the next poll. -/
theorem delete_then_reread_failing_input :
    (delete_sms_at ⟨""⟩ (fun _ => respOK) {"ME_1"} 1 "ME").1 = true ∧
    "ME_1" ∉ (delete_sms_at ⟨""⟩ (fun _ => respOK) {"ME_1"} 1 "ME").2.2.1 ∧
    (delete_sms_at ⟨""⟩
      (fun cmd => if cmd = "AT+CPMS=\"ME\"" then respOK else cmgrGarbled)
      {"ME_1"} 1 "ME").1 = false ∧
    "ME_1" ∈ (delete_sms_at ⟨""⟩
      (fun cmd => if cmd = "AT+CPMS=\"ME\"" then respOK else cmgrGarbled)
      {"ME_1"} 1 "ME").2.2.1 ∧
    parseCMGLIndices cmglZeroOne = [0, 1] ∧
    read_single_sms 1 cmgrHello ≠ none ∧
    ((read_all_sms "ME" (envAllGood cmglZeroOne)
        (delete_sms_at ⟨""⟩ (fun _ => respOK) {"ME_1"} 1 "ME").2.2.1).1.map
      SmsRec.index) = [0] := by
  refine ⟨by decide, by decide, by decide, by decide, by decide, by decide, by decide⟩

/-- Outcome of the Gammu `DeleteSMS` call in `SMSDevice.delete_sms`. -/
inductive GammuDel
  | ok
  | gsmError (code : Nat)
  | exc
deriving Repr, DecidableEq

/-- Operation `SMSDevice.delete_sms` performs on the wire: an AT command
written through the helper (with its settle time in tenths of a second)
or a Gammu `DeleteSMS` call. -/
inductive DelOp
  | atCmd (cmd : String) (wait : Nat)
  | gammuDelete (folder : Nat) (location : Int)
deriving Repr, DecidableEq

/-- State of the lazily created `SMSDeviceAT` helper owned by
`SMSDevice`: its own serial port and its own dedup set. -/
structure ATIface where
  ser : Serial
  processed : Finset String
deriving DecidableEq

/-- Mutable per-device state of `SMSDevice` (`state_machine is not None`
is abstracted to the flag `connected`). -/
structure DevState where
  deviceName : String
  connected : Bool
  processed : Finset String
  delete_errors : Nat
  deletion_disabled : Bool
  at_interface : Option ATIface
  use_at_for_deletion : Bool
deriving DecidableEq

/-- Environment of one `delete_sms` call: whether the AT module imported
(`AT_COMMANDS_AVAILABLE`), whether the helper's `connect()` succeeds, the
helper's command responses, and Gammu's outcome. -/
structure DelEnv where
  atAvailable : Bool
  atConnectOk : Bool
  atEnv : String → String
  gammu : GammuDel

/-- AT-first branch of `SMSDevice.delete_sms`: create the helper on first
use (a failed `connect()` drops to Gammu and turns the AT path off for
good), then call `delete_sms_at`. Returns `none` when the AT path was not
attempted, otherwise `some` of the AT result. -/
def atAttempt (st : DevState) (location : Int) (memory : String)
    (env : DelEnv) : DevState × Option Bool × List DelOp :=
  if st.use_at_for_deletion && env.atAvailable then
    match st.at_interface with
    | none =>
      if env.atConnectOk then
        let r := delete_sms_at ⟨""⟩ env.atEnv ∅ location memory
        ({st with at_interface := some ⟨r.2.1, r.2.2.1⟩},
          some r.1, r.2.2.2.map (fun p => DelOp.atCmd p.1 p.2))
      else
        ({st with at_interface := none, use_at_for_deletion := false}, none, [])
    | some iface =>
      let r := delete_sms_at iface.ser env.atEnv iface.processed location memory
      ({st with at_interface := some ⟨r.2.1, r.2.2.1⟩},
        some r.1, r.2.2.2.map (fun p => DelOp.atCmd p.1 p.2))
  else (st, none, [])

/-- Model of `SMSDevice.delete_sms` with its safety checks: short-circuit
while deletion is disabled; count an error for a missing connection, an
out-of-bounds location (disabling deletion when the counter reaches 3),
or an invalid folder; otherwise try the AT helper first and fall back to
Gammu, resetting the error counter on success and disabling deletion when
the counter reaches 5 after a Gammu error. -/
def dev_delete_sms (st : DevState) (location : Int) (folder : Nat)
    (env : DelEnv) : Bool × DevState × List DelOp :=
  if st.deletion_disabled then (false, st, [])
  else if st.connected = false then
    (false, {st with delete_errors := st.delete_errors + 1}, [])
  else if location < 0 ∨ location > 1000 then
    let e := st.delete_errors + 1
    if e ≥ 3 then
      (false, {st with delete_errors := e, deletion_disabled := true}, [])
    else (false, {st with delete_errors := e}, [])
  else if ¬(folder = 0 ∨ folder = 1 ∨ folder = 2 ∨ folder = 3) then
    (false, {st with delete_errors := st.delete_errors + 1}, [])
  else
    let memory := if folder = 2 ∨ folder = 3 then "ME" else "SM"
    let a := atAttempt st location memory env
    if a.2.1 = some true then (true, {a.1 with delete_errors := 0}, a.2.2)
    else
      match env.gammu with
      | GammuDel.ok =>
        (true, {a.1 with delete_errors := 0},
          a.2.2 ++ [DelOp.gammuDelete folder location])
      | GammuDel.gsmError _ =>
        let e := a.1.delete_errors + 1
        if e ≥ 5 then
          (false, {a.1 with delete_errors := e, deletion_disabled := true},
            a.2.2 ++ [DelOp.gammuDelete folder location])
        else
          (false, {a.1 with delete_errors := e},
            a.2.2 ++ [DelOp.gammuDelete folder location])
      | GammuDel.exc =>
        (false, {a.1 with delete_errors := a.1.delete_errors + 1},
          a.2.2 ++ [DelOp.gammuDelete folder location])

/-- One Gammu message part as yielded by `GetNextSMS` ('' models a
missing or falsy `Number`/`Text`; the `DateTime` field is dropped). -/
structure GammuMsg where
  location : Int
  number : String
  text : String
  state : String
deriving Repr, DecidableEq

/-- Message dictionary appended by `SMSDevice.read_sms` (its `date` field
is dropped: no claim inspects it). -/
structure GammuRec where
  device : String
  number : String
  text : String
  location : Int
  folder : Nat
  sms_id : String
  state : String
deriving Repr, DecidableEq

/-- Dedup key `f"{device_name}_F{folder}_{location}"`. -/
def mkGammuId (dev : String) (folder : Nat) (location : Int) : String :=
  dev ++ "_F" ++ toString folder ++ "_" ++ toString location

/-- Inner `for message in sms:` loop of `SMSDevice.read_sms`: an
out-of-bounds location clears the whole processed cache, disables
deletion and breaks out of the batch; otherwise already-processed or
invalid entries are skipped and valid entries are emitted and marked. -/
def processBatch (dev : String) (folder : Nat) :
    List GammuMsg → DevState → DevState × List GammuRec
  | [], st => (st, [])
  | m :: rest, st =>
    if m.location < 0 ∨ m.location > 1000 then
      ({st with processed := ∅, deletion_disabled := true}, [])
    else
      let sms_id := mkGammuId dev folder m.location
      if sms_id ∈ st.processed then processBatch dev folder rest st
      else if m.number = "" ∨ m.text = "" then processBatch dev folder rest st
      else
        let r := processBatch dev folder rest
          {st with processed := insert sms_id st.processed}
        (r.1, ⟨dev, m.number, m.text, m.location, folder, sms_id, m.state⟩ :: r.2)

/-- The `while read_attempts < max_attempts` loop of `read_sms` for one
folder; the `GetNextSMS` chain is modelled as the list of batches the
device yields before raising `ERR_EMPTY`, and the fuel is the
`max_attempts = 50` bound. -/
def folderLoop (dev : String) (folder : Nat) :
    Nat → List (List GammuMsg) → DevState → DevState × List GammuRec
  | 0, _, st => (st, [])
  | _ + 1, [], st => (st, [])
  | fuel + 1, b :: bs, st =>
    let r1 := processBatch dev folder b st
    let r2 := folderLoop dev folder fuel bs r1.1
    (r2.1, r1.2 ++ r2.2)

/-- Per-poll responses of `SMSDevice.read_sms`: the summed status count
and the batch chains for inbox folders 0 and 2. -/
structure ReadEnv where
  used : Nat
  batches0 : List (List GammuMsg)
  batches2 : List (List GammuMsg)

/-- Model of `SMSDevice.read_sms`: nothing without a connection or with a
zero status count; otherwise scan inbox folders 0 and 2, at most 50
batches each. -/
def dev_read_sms (st : DevState) (env : ReadEnv) : List GammuRec × DevState :=
  if st.connected = false then ([], st)
  else if env.used = 0 then ([], st)
  else
    let r0 := folderLoop st.deviceName 0 50 env.batches0 st
    let r2 := folderLoop st.deviceName 2 50 env.batches2 r0.1
    (r0.2 ++ r2.2, r2.1)

/-- One call in a device's run. -/
inductive DevOp
  | del (location : Int) (folder : Nat) (env : DelEnv)
  | read (env : ReadEnv)

/-- A run of the device: `delete_sms` and `read_sms` calls in sequence. -/
def runDevOps : DevState → List DevOp → DevState
  | st, [] => st
  | st, DevOp.del location folder env :: ops =>
    runDevOps (dev_delete_sms st location folder env).2.1 ops
  | st, DevOp.read env :: ops => runDevOps (dev_read_sms st env).2 ops

lemma processBatch_disabled_mono (dev : String) (folder : Nat)
    (ms : List GammuMsg) (st : DevState) (h : st.deletion_disabled = true) :
    (processBatch dev folder ms st).1.deletion_disabled = true := by
  induction ms generalizing st with
  | nil => exact h
  | cons m rest ih =>
    rw [processBatch]
    by_cases h1 : m.location < 0 ∨ m.location > 1000
    · rw [if_pos h1]
    · rw [if_neg h1]
      by_cases h2 : mkGammuId dev folder m.location ∈ st.processed
      · rw [if_pos h2]
        exact ih st h
      · rw [if_neg h2]
        by_cases h3 : m.number = "" ∨ m.text = ""
        · rw [if_pos h3]
          exact ih st h
        · rw [if_neg h3]
          exact ih _ h

lemma folderLoop_disabled_mono (dev : String) (folder : Nat) (fuel : Nat)
    (bs : List (List GammuMsg)) (st : DevState)
    (h : st.deletion_disabled = true) :
    (folderLoop dev folder fuel bs st).1.deletion_disabled = true := by
  induction fuel generalizing bs st with
  | zero => exact h
  | succ n ih =>
    cases bs with
    | nil => exact h
    | cons b bsx =>
      rw [folderLoop]
      exact ih bsx _ (processBatch_disabled_mono dev folder b st h)

lemma dev_read_sms_disabled_mono (st : DevState) (env : ReadEnv)
    (h : st.deletion_disabled = true) :
    (dev_read_sms st env).2.deletion_disabled = true := by
  rw [dev_read_sms]
  split
  · exact h
  · split
    · exact h
    · exact folderLoop_disabled_mono _ _ _ _ _
        (folderLoop_disabled_mono _ _ _ _ _ h)

lemma dev_delete_sms_disabled (st : DevState) (location : Int) (folder : Nat)
    (env : DelEnv) (h : st.deletion_disabled = true) :
    dev_delete_sms st location folder env = (false, st, []) := by
  rw [dev_delete_sms, if_pos h]

lemma runDevOps_disabled_mono (ops : List DevOp) (st : DevState)
    (h : st.deletion_disabled = true) :
    (runDevOps st ops).deletion_disabled = true := by
  induction ops generalizing st with
  | nil => exact h
  | cons op ops ih =>
    cases op with
    | del location folder env =>
      rw [runDevOps, dev_delete_sms_disabled st location folder env h]
      exact ih st h
    | read env =>
      rw [runDevOps]
      exact ih _ (dev_read_sms_disabled_mono st env h)

lemma processBatch_corrupt (dev : String) (folder : Nat)
    (ms : List GammuMsg) (st : DevState) (m : GammuMsg) (hm : m ∈ ms)
    (hloc : m.location < 0 ∨ m.location > 1000) :
    (processBatch dev folder ms st).1.processed = ∅ ∧
    (processBatch dev folder ms st).1.deletion_disabled = true := by
  induction ms generalizing st with
  | nil => simp at hm
  | cons a rest ih =>
    rw [processBatch]
    by_cases h1 : a.location < 0 ∨ a.location > 1000
    · rw [if_pos h1]
      exact ⟨rfl, rfl⟩
    · rw [if_neg h1]
      have hm2 : m ∈ rest := by
        rcases List.mem_cons.mp hm with he | ht
        · subst he
          exact absurd hloc h1
        · exact ht
      by_cases h2 : mkGammuId dev folder a.location ∈ st.processed
      · rw [if_pos h2]
        exact ih st hm2
      · rw [if_neg h2]
        by_cases h3 : a.number = "" ∨ a.text = ""
        · rw [if_pos h3]
          exact ih st hm2
        · rw [if_neg h3]
          exact ih _ hm2

/-- C3: Corruption guard monotonicity — a disabled device short-circuits
every `delete_sms` to `False` with no AT or Gammu operation and no state
change; no later `delete_sms` or `read_sms` call ever resets the flag;
and each trigger does set it: an out-of-bounds location in a read batch,
the error counter reaching 3 on an out-of-bounds delete request, and the
counter reaching 5 on a failing Gammu delete. -/
theorem corruption_guard_monotonicity :
    (∀ (st : DevState) (location : Int) (folder : Nat) (env : DelEnv),
      st.deletion_disabled = true →
      dev_delete_sms st location folder env = (false, st, [])) ∧
    (∀ (st : DevState) (ops : List DevOp), st.deletion_disabled = true →
      (runDevOps st ops).deletion_disabled = true) ∧
    (∀ (dev : String) (folder : Nat) (ms : List GammuMsg) (st : DevState)
      (m : GammuMsg), m ∈ ms → (m.location < 0 ∨ m.location > 1000) →
      (processBatch dev folder ms st).1.deletion_disabled = true) ∧
    (∀ (st : DevState) (location : Int) (env : DelEnv),
      st.connected = true → st.deletion_disabled = false →
      st.delete_errors = 2 → (location < 0 ∨ location > 1000) →
      (dev_delete_sms st location 0 env).2.1.deletion_disabled = true) ∧
    (∀ (st : DevState) (env : DelEnv),
      st.connected = true → st.deletion_disabled = false →
      st.delete_errors = 4 → env.atAvailable = false →
      env.gammu = GammuDel.gsmError 1 →
      (dev_delete_sms st 5 0 env).2.1.deletion_disabled = true) := by
  refine ⟨fun st location folder env h =>
      dev_delete_sms_disabled st location folder env h,
    fun st ops h => runDevOps_disabled_mono ops st h,
    fun dev folder ms st m hm hloc =>
      (processBatch_corrupt dev folder ms st m hm hloc).2, ?_, ?_⟩
  · intro st location env h1 h2 h3 h4
    rw [dev_delete_sms, if_neg (by simp [h2]), if_neg (by simp [h1]),
      if_pos h4]
    dsimp only
    rw [h3, if_pos (by norm_num)]
  · intro st env h1 h2 h3 h4 h5
    have ha : atAttempt st 5 (if (0 : Nat) = 2 ∨ (0 : Nat) = 3 then "ME" else "SM")
        env = (st, none, []) := by
      rw [atAttempt, h4, Bool.and_false]
      rfl
    rw [dev_delete_sms, if_neg (by simp [h2]), if_neg (by simp [h1]),
      if_neg (by norm_num), if_neg (by norm_num)]
    dsimp only
    rw [ha]
    rw [if_neg (by simp), h5]
    dsimp only
    rw [h3, if_pos (by norm_num)]

/-- Witness for C3: the general clauses applied at concrete states. -/
theorem corruption_guard_monotonicity_witness :
    dev_delete_sms ⟨"d", true, ∅, 0, true, none, true⟩ 5 0
      ⟨true, true, fun _ => respOK, GammuDel.ok⟩ =
      (false, ⟨"d", true, ∅, 0, true, none, true⟩, []) ∧
    (runDevOps ⟨"d", true, ∅, 0, true, none, true⟩
      [DevOp.read ⟨1, [[⟨0, "n", "t", "s"⟩]], []⟩]).deletion_disabled = true ∧
    (processBatch "d" 0 [⟨2000, "n", "t", "s"⟩]
      ⟨"d", true, ∅, 0, false, none, true⟩).1.deletion_disabled = true ∧
    (dev_delete_sms ⟨"d", true, ∅, 2, false, none, true⟩ 2000 0
      ⟨true, true, fun _ => respOK, GammuDel.ok⟩).2.1.deletion_disabled = true ∧
    (dev_delete_sms ⟨"d", true, ∅, 4, false, none, true⟩ 5 0
      ⟨false, true, fun _ => respOK, GammuDel.gsmError 1⟩).2.1.deletion_disabled
      = true := by
  refine ⟨corruption_guard_monotonicity.1 _ 5 0 _ rfl,
    corruption_guard_monotonicity.2.1 _ _ rfl,
    corruption_guard_monotonicity.2.2.1 "d" 0 _ _ ⟨2000, "n", "t", "s"⟩
      (by simp) (by norm_num),
    corruption_guard_monotonicity.2.2.2.1 _ 2000 _ rfl rfl rfl (by norm_num),
    corruption_guard_monotonicity.2.2.2.2 _ _ rfl rfl rfl rfl rfl⟩

/-- Counterexample to C6 as stated: a delete requested for the
out-of-bounds index 2000 leaves the nonempty processed set untouched
instead of clearing it. -/
theorem invalid_index_clear_counterexample :
    (dev_delete_sms ⟨"d", true, {"k"}, 0, false, none, true⟩ 2000 0
      ⟨true, true, fun _ => respOK, GammuDel.ok⟩).2.1.processed = {"k"} ∧
    ({"k"} : Finset String) ≠ ∅ :=
  ⟨rfl, Finset.singleton_ne_empty _⟩

/-- C6 amended: only the read path clears — an out-of-bounds location
seen while reading messages clears the entire processed set (and disables
deletion); a delete requested for an out-of-bounds index only counts an
error and leaves the processed set unchanged, as does `delete_sms_at`'s
own bound check. -/
theorem invalid_index_clear_amended :
    (∀ (dev : String) (folder : Nat) (ms : List GammuMsg) (st : DevState)
      (m : GammuMsg), m ∈ ms → (m.location < 0 ∨ m.location > 1000) →
      (processBatch dev folder ms st).1.processed = ∅ ∧
      (processBatch dev folder ms st).1.deletion_disabled = true) ∧
    (∀ (st : DevState) (location : Int) (folder : Nat) (env : DelEnv),
      st.deletion_disabled = false → st.connected = true →
      (location < 0 ∨ location > 1000) →
      (dev_delete_sms st location folder env).2.1.processed = st.processed) ∧
    (∀ (ser : Serial) (env : String → String) (processed : Finset String)
      (location : Int) (memory : String),
      (location < 0 ∨ location > 1000) →
      (delete_sms_at ser env processed location memory).2.2.1 = processed) := by
  refine ⟨fun dev folder ms st m hm hloc =>
    processBatch_corrupt dev folder ms st m hm hloc, ?_, ?_⟩
  · intro st location folder env h1 h2 h3
    rw [dev_delete_sms, if_neg (by simp [h1]), if_neg (by simp [h2]),
      if_pos h3]
    dsimp only
    split
    · rfl
    · rfl
  · intro ser env processed location memory h
    rw [delete_sms_at, if_pos h]

/-- Witness for C6's amended statement at concrete inputs. -/
theorem invalid_index_clear_amended_witness :
    (processBatch "d" 0 [⟨-3, "n", "t", "s"⟩]
      ⟨"d", true, {"k"}, 0, false, none, true⟩).1.processed = ∅ ∧
    (dev_delete_sms ⟨"d", true, {"k"}, 0, false, none, true⟩ 2000 2
      ⟨true, true, fun _ => respOK, GammuDel.ok⟩).2.1.processed = {"k"} ∧
    (delete_sms_at ⟨""⟩ (fun _ => respOK) {"k"} (-1) "ME").2.2.1 = {"k"} := by
  refine ⟨(invalid_index_clear_amended.1 "d" 0 _ _ ⟨-3, "n", "t", "s"⟩
      (by simp) (by norm_num)).1,
    invalid_index_clear_amended.2.1 _ 2000 2 _ rfl rfl (by norm_num),
    invalid_index_clear_amended.2.2 _ _ _ (-1) "ME" (by norm_num)⟩

/-- Per-device active-call tracking of `SMSDeviceAT` (`active_call_number`
is `some` of the caller; the source's truthiness test coincides since
recorded numbers are never the empty string). -/
structure CallState where
  active_call_number : Option String
  active_call_notified : Bool
deriving Repr, DecidableEq

/-- Call dictionary returned by `check_incoming_call` (its wall-clock
`timestamp` field is dropped: no claim inspects it). -/
structure CallInfo where
  call_id : Nat
  number : String
  status : String
  mode : String
deriving Repr, DecidableEq

/-- Status vocabulary `status_map.get(status, 'Unknown')` of
`check_incoming_call`. -/
def callStatusStr (stat : Nat) : String :=
  match stat with
  | 0 => "Active"
  | 1 => "Held"
  | 2 => "Dialing"
  | 3 => "Alerting"
  | 4 => "Incoming"
  | 5 => "Waiting"
  | _ => "Unknown"

/-- Mode vocabulary `mode_map.get(mode, 'Unknown')` of
`check_incoming_call`. -/
def callModeStr (mode : Nat) : String :=
  match mode with
  | 0 => "Voice"
  | 1 => "Data"
  | 2 => "Fax"
  | _ => "Unknown"

/-- Anchored matcher for
`\+CLCC:\s*(\d+),(\d+),(\d+),(\d+),(\d+)(?:,"([^"]+)",(\d+))?` of
`check_incoming_call`: call id, direction, status, mode, multiparty flag
and the optional quoted number (whose trailing type field must also parse
for the optional group to match). -/
def matchCLCC (s : List Char) :
    Option (Nat × Nat × Nat × Nat × Nat × Option String) := do
  let s ← dropLit "+CLCC:".data s
  let (cid, s) ← digits1 (s.dropWhile isSpaceB)
  let s ← dropLit [','] s
  let (dir, s) ← digits1 s
  let s ← dropLit [','] s
  let (stat, s) ← digits1 s
  let s ← dropLit [','] s
  let (mode, s) ← digits1 s
  let s ← dropLit [','] s
  let (mpty, s) ← digits1 s
  let numOpt :=
    match dropLit [','] s with
    | none => none
    | some s1 =>
      match quoted1 s1 with
      | none => none
      | some (num, s2) =>
        match dropLit [','] s2 with
        | none => none
        | some s3 =>
          match digits1 s3 with
          | none => none
          | some _ => some (String.mk num)
  pure (cid, dir, stat, mode, mpty, numOpt)

/-- Scan of the `AT+CLCC` response lines in `check_incoming_call`: the
first line parsing as a `+CLCC` record with direction 1 (incoming) ends
the loop, yielding call id, status code, mode code and the optional
number; other lines are passed over. -/
def firstIncoming : List (List Char) → Option (Nat × Nat × Nat × Option String)
  | [] => none
  | l :: rest =>
    let lc := strip l
    if startsWithL "+CLCC:".data lc then
      match matchCLCC lc with
      | some (cid, dir, stat, mode, _, numOpt) =>
        if dir = 1 then some (cid, stat, mode, numOpt) else firstIncoming rest
      | none => firstIncoming rest
    else firstIncoming rest

/-- Model of `SMSDeviceAT.check_incoming_call` given the drained
unsolicited bytes (`data`, empty when `in_waiting == 0`) and the
`AT+CLCC` response text: a call-end marker clears the active call; a ring
marker queries the call list, ignores a repeat of the already-notified
number, and otherwise records the caller as active-and-notified and
returns the call. -/
def check_incoming_call (st : CallState) (data : String) (clcc : String) :
    Option CallInfo × CallState :=
  if data = "" then (none, st)
  else
    let st1 :=
      if strContains data "NO CARRIER" then
        match st.active_call_number with
        | some _ => (⟨none, false⟩ : CallState)
        | none => st
      else st
    if strContains data "RING" then
      match firstIncoming (splitOnChar '\n' clcc.data) with
      | some (cid, stat, mode, numOpt) =>
        let number := numOpt.getD "Unknown"
        if st1.active_call_number = some number ∧
            st1.active_call_notified = true then
          (none, st1)
        else
          (some ⟨cid, number, callStatusStr stat, callModeStr mode⟩,
            ⟨some number, true⟩)
      | none => (none, st1)
    else (none, st1)

/-- C4: Call debounce — with an incoming record for number `n` parsed from
the call-list response: a ring repeating the already-notified active
number yields no record and no state change, so two same-number arrivals
with no call-end between them yield exactly one record; a ring while a
different number (or none) is active yields a record and overwrites the
active number with the notified flag set; a call-end marker without a
ring clears the active number and flag, so the same number rings (and is
reported) again afterwards. -/
theorem call_debounce :
    (∀ (st : CallState) (data clcc : String) (cid stat mode : Nat)
      (n : String), data ≠ "" → strContains data "RING" = true →
      strContains data "NO CARRIER" = false →
      firstIncoming (splitOnChar '\n' clcc.data) = some (cid, stat, mode, some n) →
      st.active_call_number = some n → st.active_call_notified = true →
      check_incoming_call st data clcc = (none, st)) ∧
    (∀ (st : CallState) (data clcc : String) (cid stat mode : Nat)
      (n : String), data ≠ "" → strContains data "RING" = true →
      strContains data "NO CARRIER" = false →
      firstIncoming (splitOnChar '\n' clcc.data) = some (cid, stat, mode, some n) →
      ¬(st.active_call_number = some n ∧ st.active_call_notified = true) →
      check_incoming_call st data clcc =
        (some ⟨cid, n, callStatusStr stat, callModeStr mode⟩, ⟨some n, true⟩)) ∧
    (∀ (st : CallState) (data clcc : String) (m : String), data ≠ "" →
      strContains data "RING" = false →
      strContains data "NO CARRIER" = true →
      st.active_call_number = some m →
      check_incoming_call st data clcc = (none, ⟨none, false⟩)) := by
  refine ⟨?_, ?_, ?_⟩
  · intro st data clcc cid stat mode n hd hr hnc hfi hact hnot
    simp [check_incoming_call, hd, hr, hnc, hfi, hact, hnot]
  · intro st data clcc cid stat mode n hd hr hnc hfi hne
    simp [check_incoming_call, hd, hr, hnc, hfi, hne]
  · intro st data clcc m hd hr hnc hact
    simp [check_incoming_call, hd, hr, hnc, hact]

/-- Call-list response announcing one incoming voice call from `n`. -/
def clccIncoming (n : String) : String :=
  "AT+CLCC\r\n+CLCC: 1,1,4,0,0,\"" ++ n ++ "\",129\r\n\r\nOK\r\n"

/-- Witness for C4: a ring, a repeated ring, a ring from a second number,
a call end, and a ring from the first number again, at concrete inputs. -/
theorem call_debounce_witness :
    check_incoming_call ⟨none, false⟩ "RING\r\n" (clccIncoming "+61400000001") =
      (some ⟨1, "+61400000001", "Incoming", "Voice"⟩,
        ⟨some "+61400000001", true⟩) ∧
    check_incoming_call ⟨some "+61400000001", true⟩ "RING\r\n"
      (clccIncoming "+61400000001") = (none, ⟨some "+61400000001", true⟩) ∧
    check_incoming_call ⟨some "+61400000001", true⟩ "RING\r\n"
      (clccIncoming "+61400000002") =
      (some ⟨1, "+61400000002", "Incoming", "Voice"⟩,
        ⟨some "+61400000002", true⟩) ∧
    check_incoming_call ⟨some "+61400000002", true⟩ "NO CARRIER\r\n"
      (clccIncoming "+61400000002") = (none, ⟨none, false⟩) ∧
    check_incoming_call ⟨none, false⟩ "RING\r\n" (clccIncoming "+61400000001") =
      (some ⟨1, "+61400000001", "Incoming", "Voice"⟩,
        ⟨some "+61400000001", true⟩) := by
  refine ⟨call_debounce.2.1 ⟨none, false⟩ "RING\r\n" _ 1 4 0 "+61400000001"
      (by decide) (by decide) (by decide) (by decide) (by decide),
    call_debounce.1 ⟨some "+61400000001", true⟩ "RING\r\n" _ 1 4 0
      "+61400000001" (by decide) (by decide) (by decide) (by decide) rfl rfl,
    call_debounce.2.1 ⟨some "+61400000001", true⟩ "RING\r\n" _ 1 4 0
      "+61400000002" (by decide) (by decide) (by decide) (by decide)
      (by decide),
    call_debounce.2.2 ⟨some "+61400000002", true⟩ "NO CARRIER\r\n" _
      "+61400000002" (by decide) (by decide) (by decide) rfl,
    call_debounce.2.1 ⟨none, false⟩ "RING\r\n" _ 1 4 0 "+61400000001"
      (by decide) (by decide) (by decide) (by decide) (by decide)⟩

end SMSF
